import Mathlib

/-!
Shallow embedding of nodepool/stats.py (the statsd reporting helper of the
nodepool project) and proofs about its specification.

The Python module has three parts:
  * get_client: builds a statsd client from the optional STATSD_HOST and
    STATSD_PORT environment values, or returns None when neither is set;
  * StatsReporter.recordLaunchStats: fans a launch event out to a list of
    statsd keys, emitting one timing sample and one increment per key;
  * StatsReporter.updateNodeStats: seeds a dict of per-state counters from
    the valid-state enumeration, scans the node iterator once, and emits one
    gauge per accumulated key plus a max_servers gauge.

Python strings are modelled as Lean String, Python ints as Int, the statsd
client calls as an explicit list of Emission values, Python dicts as
insertion-ordered association lists (update-in-place for an existing key,
append for a new key - the semantics of CPython dicts), and a raised
KeyError as the error branch of Except.  The environment, the ZooKeeper
connection (an iterator of node records) and the provider configuration are
the external collaborators of the module; they enter as explicit arguments.
zk.Node.VALID_STATES itself lives outside the supplied sources, so the
valid-state enumeration is likewise an explicit argument (a list of state
names); the spec only requires it to be a fixed, statically known
enumeration.
-/

/-- Calls that the reporter makes on the statsd sink: timing samples,
increments, and gauges, in emission order. -/
inductive Emission where
  | timing (key : String) (dt : Int)
  | incr (key : String)
  | gauge (key : String) (value : Int)
deriving DecidableEq, Repr

/-- Truthiness of an optional Python string: None and the empty string are
falsy, any other string is truthy. -/
def pyTruthyStr (v : Option String) : Bool :=
  match v with
  | none => false
  | some s => s ≠ ""

/-- Truthiness of an optional Python int: None and 0 are falsy. -/
def pyTruthyInt (v : Option Int) : Bool :=
  match v with
  | none => false
  | some n => n ≠ 0

/-- The statsd.StatsClient construction, recording which keyword arguments
were passed; an absent field falls through to the backend's own default. -/
structure StatsClient where
  host : Option String
  port : Option String
deriving DecidableEq, Repr

/-- Embedding of get_client: statsd_args collects 'host' when STATSD_HOST
is set and non-empty, and 'port' when STATSD_PORT is set and non-empty
(Python truthiness of os.getenv(name, None)); a client is built exactly
when statsd_args is a non-empty dict. -/
def get_client (statsdHost statsdPort : Option String) : Option StatsClient :=
  let args0 : StatsClient := { host := none, port := none }
  let args1 := if pyTruthyStr statsdHost then { args0 with host := statsdHost } else args0
  let args2 := if pyTruthyStr statsdPort then { args1 with port := statsdPort } else args1
  if args2.host.isSome || args2.port.isSome then some args2 else none

/-- Embedding of Python str.replace for a single-character pattern and a
single-character replacement: every occurrence is replaced. -/
def pyReplaceChar (s : String) (pat sub : Char) : String :=
  String.mk (s.data.map (fun c => if c = pat then sub else c))

/-- Node record as read from ZooKeeper: its lifecycle state, its label
(node.type), and the name of the provider that owns it. -/
structure Node where
  state : String
  type : String
  provider : String
deriving DecidableEq, Repr

/-- Pool configuration: an optional max-servers limit. -/
structure Pool where
  max_servers : Option Int
deriving DecidableEq, Repr

/-- Provider configuration: a name and a dict of pool name to pool. -/
structure Provider where
  name : String
  pools : List (String × Pool)
deriving DecidableEq, Repr

/-- Sanitization of the requestor in recordLaunchStats: replace every '.'
(a graphite hierarchy separator) and then every ':' (a statsd delimiter)
with an underscore. -/
def sanitizeRequestor (requestor : String) : String :=
  pyReplaceChar (pyReplaceChar requestor '.' '_') ':' '_'

/-- Key list built by recordLaunchStats: three unconditional keys, one more
when node_az is truthy, and a sanitized requestor key when requestor is
truthy. -/
def launchKeys (subkey image_name provider_name node_az requestor : String) :
    List String :=
  let keys := [
    "nodepool.launch.provider." ++ provider_name ++ "." ++ subkey,
    "nodepool.launch.image." ++ image_name ++ "." ++ subkey,
    "nodepool.launch." ++ subkey]
  let keys := if node_az ≠ "" then
      keys ++ ["nodepool.launch.provider." ++ provider_name ++ "." ++ node_az ++ "." ++ subkey]
    else keys
  let keys := if requestor ≠ "" then
      keys ++ ["nodepool.launch.requestor." ++ sanitizeRequestor requestor ++ "." ++ subkey]
    else keys
  keys

/-- Embedding of StatsReporter.recordLaunchStats.  The statsd argument is
the presence of the sink (self._statsd); when absent the method returns at
once.  Otherwise it emits, for each key in order, a timing sample with the
duration dt followed by an increment. -/
def recordLaunchStats (statsd : Bool) (subkey : String) (dt : Int)
    (image_name provider_name node_az requestor : String) : List Emission :=
  if statsd = false then []
  else
    (launchKeys subkey image_name provider_name node_az requestor).flatMap
      (fun key => [Emission.timing key dt, Emission.incr key])

/-- Lookup in a Python dict modelled as an insertion-ordered association
list: the value at the first (and only) occurrence of the key. -/
def dictFind (d : List (String × Int)) (k : String) : Option Int :=
  match d with
  | [] => none
  | (k', v) :: rest => if k' = k then some v else dictFind rest k

/-- Assignment d[k] = v in a Python dict: update in place when the key is
present, append at the end when it is new. -/
def dictSet (d : List (String × Int)) (k : String) (v : Int) :
    List (String × Int) :=
  match d with
  | [] => [(k, v)]
  | (k', v') :: rest =>
    if k' = k then (k', v) :: rest else (k', v') :: dictSet rest k v

/-- Key nodepool.nodes.STATE of the global per-state gauge. -/
def nodesKey (state : String) : String :=
  "nodepool.nodes." ++ state

/-- Key nodepool.label.LABEL.nodes.STATE of a label-scoped gauge. -/
def labelKey (label state : String) : String :=
  "nodepool.label." ++ label ++ ".nodes." ++ state

/-- Key nodepool.provider.PROVIDER.nodes.STATE of a provider-scoped
gauge. -/
def providerKey (provider state : String) : String :=
  "nodepool.provider." ++ provider ++ ".nodes." ++ state

/-- Key nodepool.provider.PROVIDER.max_servers of the capacity gauge. -/
def maxServersKey (provider : String) : String :=
  "nodepool.provider." ++ provider ++ ".max_servers"

/-- Seeding loop of updateNodeStats: for every state in the valid-state
enumeration, the global key and this provider's key are set to zero. -/
def seedStates (providerName : String) (validStates : List String) :
    List (String × Int) :=
  validStates.foldl
    (fun d state =>
      dictSet (dictSet d (nodesKey state) 0) (providerKey providerName state) 0)
    []

/-- Body of the scan loop of updateNodeStats for one node record.  The
global key is incremented unguarded - Python raises KeyError when it is
absent, modelled as the error branch carrying the offending key.  The label
and provider keys are incremented when present and initialized to 1
otherwise. -/
def scanNode (d : List (String × Int)) (node : Node) :
    Except String (List (String × Int)) :=
  let key1 := nodesKey node.state
  match dictFind d key1 with
  | none => Except.error key1
  | some v =>
    let d := dictSet d key1 (v + 1)
    let key2 := labelKey node.type node.state
    let d := match dictFind d key2 with
      | some v2 => dictSet d key2 (v2 + 1)
      | none => dictSet d key2 1
    let key3 := providerKey node.provider node.state
    let d := match dictFind d key3 with
      | some v3 => dictSet d key3 (v3 + 1)
      | none => dictSet d key3 1
    Except.ok d

/-- The scan loop of updateNodeStats over the whole node iterator, stopping
at the first KeyError. -/
def scanNodes (nodes : List Node) (d : List (String × Int)) :
    Except String (List (String × Int)) :=
  match nodes with
  | [] => Except.ok d
  | n :: rest =>
    match scanNode d n with
    | Except.error e => Except.error e
    | Except.ok d' => scanNodes rest d'

/-- The max_servers value of updateNodeStats: Python's
sum(p.max_servers for p in provider.pools.values() if p.max_servers). -/
def maxServersSum (provider : Provider) : Int :=
  (((provider.pools.map Prod.snd).filter
      (fun p => pyTruthyInt p.max_servers)).map
    (fun p => p.max_servers.getD 0)).sum

/-- Embedding of StatsReporter.updateNodeStats.  The statsd argument is the
presence of the sink; when absent the method returns before the node
iterator is even created.  Otherwise: seed the accumulator, scan every node
(a record whose global key is missing raises KeyError), then emit one gauge
per accumulated key in dict order followed by the max_servers gauge.  The
result also carries the number of records consumed from the iterator. -/
def updateNodeStats (statsd : Bool) (validStates : List String)
    (provider : Provider) (nodes : List Node) :
    Except String (List Emission × Nat) :=
  if statsd = false then Except.ok ([], 0)
  else
    match scanNodes nodes (seedStates provider.name validStates) with
    | Except.error e => Except.error e
    | Except.ok d =>
      Except.ok
        ((d.map (fun kv => Emission.gauge kv.1 kv.2)) ++
          [Emission.gauge (maxServersKey provider.name) (maxServersSum provider)],
          nodes.length)

/-- Sum of the stored values over the keys satisfying a predicate. -/
def fsum (P : String → Bool) (d : List (String × Int)) : Int :=
  ((d.filter (fun kv => P kv.1)).map Prod.snd).sum

/-- Insert-or-increment: the guarded counting pattern used for label and
provider keys. -/
def bump (d : List (String × Int)) (k : String) : List (String × Int) :=
  match dictFind d k with
  | some v => dictSet d k (v + 1)
  | none => dictSet d k 1

/-- The membership test of a key in the global per-state key family of a
valid-state enumeration. -/
def isNodesKeyOf (vs : List String) (k : String) : Bool :=
  vs.any (fun s => k == nodesKey s)

/-- Sum of the values of the emitted gauges whose key lies in the global
per-state key family. -/
def globalGaugeSum (vs : List String) (es : List Emission) : Int :=
  (es.filterMap (fun e =>
    match e with
    | Emission.gauge k v => if isNodesKeyOf vs k then some v else none
    | _ => none)).sum

/-- Check that a string contains neither a dot nor a colon. -/
def noDotColon (s : String) : Bool :=
  s.data.all (fun c => (c != '.') && (c != ':'))

/-- Number of occurrences of a character in a string. -/
def charCount (c : Char) (s : String) : Nat :=
  s.data.count c

/-- The emissions of updateNodeStats at the C4 collision input: the
provider a.nodes.b with valid states c and b.nodes.c, and one record with
provider a and state b.nodes.c, whose provider key collides with the seeded
provider key for state c. -/
def collisionGauges : List Emission :=
  [Emission.gauge "nodepool.nodes.c" 0,
   Emission.gauge "nodepool.provider.a.nodes.b.nodes.c" 1,
   Emission.gauge "nodepool.nodes.b.nodes.c" 1,
   Emission.gauge "nodepool.provider.a.nodes.b.nodes.b.nodes.c" 0,
   Emission.gauge "nodepool.label.t.nodes.b.nodes.c" 1,
   Emission.gauge "nodepool.provider.a.nodes.b.max_servers" 0]

/-- The emissions of updateNodeStats at the C9 collision input: one record
with label a and state b.nodes.c, whose label key renders identically to
the label key of the combination (a.nodes.b, c). -/
def labelCollisionGauges : List Emission :=
  [Emission.gauge "nodepool.nodes.b.nodes.c" 1,
   Emission.gauge "nodepool.provider.p.nodes.b.nodes.c" 0,
   Emission.gauge "nodepool.label.a.nodes.b.nodes.c" 1,
   Emission.gauge "nodepool.provider.q.nodes.b.nodes.c" 1,
   Emission.gauge "nodepool.provider.p.max_servers" 0]

/-! String-level infrastructure: the metric keys are built by concatenation,
and the disjointness of the key families comes down to character positions
inside the literal prefixes. -/

/-- Two strings with the same character data are equal. -/
theorem str_ext {s t : String} (h : s.data = t.data) : s = t :=
  congrArg String.mk h

/-- Appending strings appends their character data. -/
theorem strData_append (s t : String) : (s ++ t).data = s.data ++ t.data :=
  String.data_append s t

/-- Length of the data of an appended string. -/
theorem strLen_append (s t : String) :
    (s ++ t).data.length = s.data.length + t.data.length := by
  rw [strData_append, List.length_append]

/-- Strings whose data differ at some position are different. -/
theorem str_ne_of_get_ne {s t : String} (i : Nat)
    (h : s.data[i]? ≠ t.data[i]?) : s ≠ t :=
  fun he => h (by rw [he])

/-- Strings whose data have different lengths are different. -/
theorem str_ne_of_len_ne {s t : String} (h : s.data.length ≠ t.data.length) :
    s ≠ t :=
  fun he => h (by rw [he])

/-- Early characters of an appended string come from the left part. -/
theorem strGet_append_left (s t : String) (i : Nat) (h : i < s.data.length) :
    (s ++ t).data[i]? = s.data[i]? := by
  rw [strData_append]
  exact List.getElem?_append_left h

/-- Early characters of a three-fold append come from the first part. -/
theorem strGet_append3_left (a b c : String) (i : Nat)
    (h : i < a.data.length) : (a ++ b ++ c).data[i]? = a.data[i]? := by
  have h1 : i < (a ++ b).data.length := by rw [strLen_append]; omega
  rw [strGet_append_left _ c _ h1, strGet_append_left _ b _ h]

/-- Early characters of a four-fold append come from the first part. -/
theorem strGet_append4_left (a b c d : String) (i : Nat)
    (h : i < a.data.length) : (a ++ b ++ c ++ d).data[i]? = a.data[i]? := by
  have h1 : i < (a ++ b ++ c).data.length := by
    rw [strLen_append, strLen_append]; omega
  rw [strGet_append_left _ d _ h1, strGet_append3_left _ b c _ h]

/-- Early characters of a five-fold append come from the first part. -/
theorem strGet_append5_left (a b c d e : String) (i : Nat)
    (h : i < a.data.length) : (a ++ b ++ c ++ d ++ e).data[i]? = a.data[i]? := by
  have h1 : i < (a ++ b ++ c ++ d).data.length := by
    rw [strLen_append, strLen_append, strLen_append]; omega
  rw [strGet_append_left _ e _ h1, strGet_append4_left _ b c d _ h]

/-- Appending to a fixed string on the left is injective. -/
theorem str_append_left_cancel {a s t : String} (h : a ++ s = a ++ t) :
    s = t := by
  apply str_ext
  have hd := congrArg String.data h
  rw [strData_append, strData_append] at hd
  exact List.append_cancel_left hd

/-! Disjointness of the four metric key families used by updateNodeStats.
All four keys share the 9-character prefix nodepool. and then diverge:
nodes. versus label. versus provider., so character 9 separates them. -/

/-- Character 9 of a global per-state key. -/
theorem nodesKey_get9 (s : String) : (nodesKey s).data[9]? = some 'n' := by
  rw [nodesKey, strGet_append_left _ _ 9 (by decide)]
  decide

/-- Character 9 of a label-scoped key. -/
theorem labelKey_get9 (l s : String) : (labelKey l s).data[9]? = some 'l' := by
  rw [labelKey, strGet_append4_left _ _ _ _ 9 (by decide)]
  decide

/-- Character 9 of a provider-scoped key. -/
theorem providerKey_get9 (p s : String) :
    (providerKey p s).data[9]? = some 'p' := by
  rw [providerKey, strGet_append4_left _ _ _ _ 9 (by decide)]
  decide

/-- Character 9 of a max_servers key. -/
theorem maxServersKey_get9 (p : String) :
    (maxServersKey p).data[9]? = some 'p' := by
  rw [maxServersKey, strGet_append3_left _ _ _ 9 (by decide)]
  decide

/-- Global per-state keys are never label-scoped keys. -/
theorem nodesKey_ne_labelKey (s l t : String) : nodesKey s ≠ labelKey l t := by
  apply str_ne_of_get_ne 9
  rw [nodesKey_get9, labelKey_get9]
  decide

/-- Global per-state keys are never provider-scoped keys. -/
theorem nodesKey_ne_providerKey (s p t : String) :
    nodesKey s ≠ providerKey p t := by
  apply str_ne_of_get_ne 9
  rw [nodesKey_get9, providerKey_get9]
  decide

/-- Label-scoped keys are never provider-scoped keys. -/
theorem labelKey_ne_providerKey (l s p t : String) :
    labelKey l s ≠ providerKey p t := by
  apply str_ne_of_get_ne 9
  rw [labelKey_get9, providerKey_get9]
  decide

/-- Global per-state keys are never max_servers keys. -/
theorem nodesKey_ne_maxServersKey (s p : String) :
    nodesKey s ≠ maxServersKey p := by
  apply str_ne_of_get_ne 9
  rw [nodesKey_get9, maxServersKey_get9]
  decide

/-- Label-scoped keys are never max_servers keys. -/
theorem labelKey_ne_maxServersKey (l s p : String) :
    labelKey l s ≠ maxServersKey p := by
  apply str_ne_of_get_ne 9
  rw [labelKey_get9, maxServersKey_get9]
  decide

/-- The global per-state key determines the state. -/
theorem nodesKey_inj {s t : String} (h : nodesKey s = nodesKey t) : s = t :=
  str_append_left_cancel h

/-! Lemmas about the Python-dict model: lookup after assignment, membership,
and sums of values over a filtered key family. -/

/-- Looking up the key just assigned returns the assigned value. -/
theorem dictFind_set_self (d : List (String × Int)) (k : String) (v : Int) :
    dictFind (dictSet d k v) k = some v := by
  induction d with
  | nil => simp [dictSet, dictFind]
  | cons kv rest ih =>
    obtain ⟨k', v'⟩ := kv
    by_cases h : k' = k
    · subst h
      simp [dictSet, dictFind]
    · simp [dictSet, dictFind, h, ih]

/-- Assignment to one key leaves lookups of other keys unchanged. -/
theorem dictFind_set_ne (d : List (String × Int)) {k k' : String} (v : Int)
    (h : k' ≠ k) : dictFind (dictSet d k v) k' = dictFind d k' := by
  induction d with
  | nil => simp [dictSet, dictFind, Ne.symm h]
  | cons kv rest ih =>
    obtain ⟨k'', v''⟩ := kv
    by_cases h2 : k'' = k
    · subst h2
      simp [dictSet, dictFind, Ne.symm h]
    · by_cases h3 : k'' = k'
      · subst h3
        simp [dictSet, dictFind, h2]
      · simp [dictSet, dictFind, h2, h3, ih]

/-- Assignment never removes a key. -/
theorem dictFind_isSome_set (d : List (String × Int)) (k k' : String)
    (v : Int) (h : (dictFind d k').isSome) :
    (dictFind (dictSet d k v) k').isSome := by
  by_cases he : k' = k
  · subst he
    rw [dictFind_set_self]
    rfl
  · rw [dictFind_set_ne d v he]
    exact h

/-- A successful lookup means the pair is in the list. -/
theorem dictFind_mem {d : List (String × Int)} {k : String} {v : Int}
    (h : dictFind d k = some v) : (k, v) ∈ d := by
  induction d with
  | nil => simp [dictFind] at h
  | cons kv rest ih =>
    obtain ⟨k', v'⟩ := kv
    by_cases h2 : k' = k
    · subst h2
      simp [dictFind] at h
      simp [h]
    · simp [dictFind, h2] at h
      exact List.mem_cons_of_mem _ (ih h)

/-- Membership of a pair makes lookup of its key succeed. -/
theorem dictFind_isSome_of_mem {d : List (String × Int)} {k : String}
    {v : Int} (h : (k, v) ∈ d) : (dictFind d k).isSome := by
  induction d with
  | nil => simp at h
  | cons kv rest ih =>
    obtain ⟨k', v'⟩ := kv
    by_cases h2 : k' = k
    · subst h2
      simp [dictFind]
    · simp [dictFind, h2]
      rcases List.mem_cons.mp h with h3 | h3
      · exact absurd (congrArg Prod.fst h3).symm h2
      · exact ih h3

/-- When no entry carries the key, lookup fails. -/
theorem dictFind_none_of_forall_ne {d : List (String × Int)} {k : String}
    (h : ∀ kv ∈ d, kv.1 ≠ k) : dictFind d k = none := by
  induction d with
  | nil => rfl
  | cons kv rest ih =>
    obtain ⟨k', v'⟩ := kv
    have h1 : k' ≠ k := h (k', v') (List.mem_cons_self _ _)
    simp only [dictFind, if_neg h1]
    exact ih (fun kv hkv => h kv (List.mem_cons_of_mem _ hkv))

/-- Assignments preserve a predicate that holds of every stored value and of
the assigned value. -/
theorem dictSet_forall_values {P : Int → Prop} {d : List (String × Int)}
    {k : String} {v : Int} (hd : ∀ kv ∈ d, P kv.2) (hv : P v) :
    ∀ kv ∈ dictSet d k v, P kv.2 := by
  induction d with
  | nil =>
    intro kv hkv
    simp [dictSet] at hkv
    rw [hkv]
    exact hv
  | cons kv0 rest ih =>
    obtain ⟨k', v'⟩ := kv0
    intro kv hkv
    by_cases h2 : k' = k
    · subst h2
      simp only [dictSet, if_pos rfl] at hkv
      rcases List.mem_cons.mp hkv with h3 | h3
      · rw [h3]
        exact hv
      · exact hd kv (List.mem_cons_of_mem _ h3)
    · simp only [dictSet, if_neg h2] at hkv
      rcases List.mem_cons.mp hkv with h3 | h3
      · rw [h3]
        exact hd (k', v') (List.mem_cons_self _ _)
      · exact ih (fun kv2 hkv2 => hd kv2 (List.mem_cons_of_mem _ hkv2)) kv h3

/-- Assigning a key outside the family leaves the family sum unchanged. -/
theorem fsum_set_not (P : String → Bool) (d : List (String × Int))
    {k : String} (v : Int) (h : P k = false) :
    fsum P (dictSet d k v) = fsum P d := by
  induction d with
  | nil => simp [fsum, dictSet, h]
  | cons kv rest ih =>
    obtain ⟨k', v'⟩ := kv
    by_cases h2 : k' = k
    · subst h2
      simp [fsum, dictSet, List.filter_cons, h]
    · simp only [fsum, dictSet, if_neg h2, List.filter_cons] at ih ⊢
      by_cases h3 : P k'
      · simp only [h3, if_pos, List.map_cons, List.sum_cons]
        omega
      · simp only [h3] at ih ⊢
        exact ih

/-- Reassigning a key of the family found with value w shifts the family
sum by the difference. -/
theorem fsum_set_found (P : String → Bool) (d : List (String × Int))
    {k : String} {w : Int} (v : Int) (hP : P k = true)
    (hf : dictFind d k = some w) :
    fsum P (dictSet d k v) = fsum P d - w + v := by
  induction d with
  | nil => simp [dictFind] at hf
  | cons kv rest ih =>
    obtain ⟨k', v'⟩ := kv
    by_cases h2 : k' = k
    · subst h2
      have hf' : v' = w := by simpa [dictFind] using hf
      subst hf'
      simp only [dictSet, fsum, List.filter_cons, hP, eq_self_iff_true,
        if_true, List.map_cons, List.sum_cons]
      omega
    · simp only [dictFind, if_neg h2] at hf
      simp only [dictSet, if_neg h2, fsum, List.filter_cons] at ih ⊢
      by_cases h3 : P k'
      · simp only [h3, if_pos, List.map_cons, List.sum_cons]
        have := ih hf
        simp only [fsum] at this
        omega
      · simp only [h3] at ih ⊢
        exact ih hf

/-- A dict whose values are all zero has zero family sum. -/
theorem fsum_zero (P : String → Bool) (d : List (String × Int))
    (h : ∀ kv ∈ d, kv.2 = 0) : fsum P d = 0 := by
  induction d with
  | nil => rfl
  | cons kv rest ih =>
    obtain ⟨k', v'⟩ := kv
    have hv : v' = 0 := h (k', v') (List.mem_cons_self _ _)
    subst hv
    simp only [fsum, List.filter_cons]
    by_cases h3 : P k'
    · simp only [h3, if_pos, List.map_cons, List.sum_cons]
      have := ih (fun kv hkv => h kv (List.mem_cons_of_mem _ hkv))
      simp only [fsum] at this
      omega
    · simp only [h3]
      exact ih (fun kv hkv => h kv (List.mem_cons_of_mem _ hkv))

/-- Assignments preserve a predicate that holds of every stored key and of
the assigned key. -/
theorem dictSet_forall_keys {Q : String → Prop} {d : List (String × Int)}
    {k : String} {v : Int} (hd : ∀ kv ∈ d, Q kv.1) (hk : Q k) :
    ∀ kv ∈ dictSet d k v, Q kv.1 := by
  induction d with
  | nil =>
    intro kv hkv
    simp [dictSet] at hkv
    rw [hkv]
    exact hk
  | cons kv0 rest ih =>
    obtain ⟨k', v'⟩ := kv0
    intro kv hkv
    by_cases h2 : k' = k
    · subst h2
      simp only [dictSet, eq_self_iff_true, if_true] at hkv
      rcases List.mem_cons.mp hkv with h3 | h3
      · rw [h3]
        exact hk
      · exact hd kv (List.mem_cons_of_mem _ h3)
    · simp only [dictSet, if_neg h2] at hkv
      rcases List.mem_cons.mp hkv with h3 | h3
      · rw [h3]
        exact hd (k', v') (List.mem_cons_self _ _)
      · exact ih (fun kv2 hkv2 => hd kv2 (List.mem_cons_of_mem _ hkv2)) kv h3

/-- A dict of zeros with the key present yields some 0 on lookup. -/
theorem dictFind_eq_zero {d : List (String × Int)} {k : String}
    (hz : ∀ kv ∈ d, kv.2 = 0) (h : (dictFind d k).isSome) :
    dictFind d k = some 0 := by
  obtain ⟨v, hv⟩ := Option.isSome_iff_exists.mp h
  have hm := dictFind_mem hv
  have := hz (k, v) hm
  simp only at this
  rw [hv, this]

/-! Lemmas about the seeding loop of updateNodeStats. -/

/-- The seeding fold keeps every key already present. -/
theorem seedFold_preserves (name : String) (vs : List String)
    (d : List (String × Int)) (k : String) (h : (dictFind d k).isSome) :
    (dictFind
      (vs.foldl
        (fun d state =>
          dictSet (dictSet d (nodesKey state) 0) (providerKey name state) 0)
        d) k).isSome := by
  induction vs generalizing d with
  | nil => exact h
  | cons s rest ih =>
    exact ih _ (dictFind_isSome_set _ _ _ _ (dictFind_isSome_set _ _ _ _ h))

/-- After the seeding fold, the global key of every listed state is
present. -/
theorem seedFold_contains_nodes (name : String) (vs : List String)
    (d : List (String × Int)) (s : String) :
    s ∈ vs →
    (dictFind
      (vs.foldl
        (fun d state =>
          dictSet (dictSet d (nodesKey state) 0) (providerKey name state) 0)
        d) (nodesKey s)).isSome := by
  induction vs generalizing d with
  | nil =>
    intro h
    simp at h
  | cons s0 rest ih =>
    intro h
    rcases List.mem_cons.mp h with h2 | h2
    · subst h2
      exact seedFold_preserves name rest _ (nodesKey s)
        (dictFind_isSome_set _ _ _ _ (by rw [dictFind_set_self]; rfl))
    · exact ih _ h2

/-- After the seeding fold, the provider key of every listed state is
present. -/
theorem seedFold_contains_provider (name : String) (vs : List String)
    (d : List (String × Int)) (s : String) :
    s ∈ vs →
    (dictFind
      (vs.foldl
        (fun d state =>
          dictSet (dictSet d (nodesKey state) 0) (providerKey name state) 0)
        d) (providerKey name s)).isSome := by
  induction vs generalizing d with
  | nil =>
    intro h
    simp at h
  | cons s0 rest ih =>
    intro h
    rcases List.mem_cons.mp h with h2 | h2
    · subst h2
      exact seedFold_preserves name rest _ (providerKey name s)
        (by rw [dictFind_set_self]; rfl)
    · exact ih _ h2

/-- The seeding fold stores only zeros when started from zeros. -/
theorem seedFold_all_zero (name : String) (vs : List String)
    (d : List (String × Int)) :
    (∀ kv ∈ d, kv.2 = 0) →
    ∀ kv ∈
      (vs.foldl
        (fun d state =>
          dictSet (dictSet d (nodesKey state) 0) (providerKey name state) 0)
        d), kv.2 = 0 := by
  induction vs generalizing d with
  | nil => exact fun hd => hd
  | cons s rest ih =>
    intro hd
    exact ih _
      (dictSet_forall_values (P := fun x => x = 0)
        (dictSet_forall_values (P := fun x => x = 0) hd rfl) rfl)

/-- The seeding fold creates only global and provider keys. -/
theorem seedFold_forall_keys {Q : String → Prop} (name : String)
    (vs : List String) (d : List (String × Int)) :
    (∀ s ∈ vs, Q (nodesKey s) ∧ Q (providerKey name s)) →
    (∀ kv ∈ d, Q kv.1) →
    ∀ kv ∈
      (vs.foldl
        (fun d state =>
          dictSet (dictSet d (nodesKey state) 0) (providerKey name state) 0)
        d), Q kv.1 := by
  induction vs generalizing d with
  | nil => exact fun _ hd => hd
  | cons s rest ih =>
    intro hQ hd
    have hs := hQ s (List.mem_cons_self _ _)
    exact ih _ (fun s2 hs2 => hQ s2 (List.mem_cons_of_mem _ hs2))
      (dictSet_forall_keys (dictSet_forall_keys hd hs.1) hs.2)

/-- Every value seeded by updateNodeStats is zero. -/
theorem seedStates_all_zero (name : String) (vs : List String) :
    ∀ kv ∈ seedStates name vs, kv.2 = 0 :=
  seedFold_all_zero name vs [] (fun kv hkv => by simp at hkv)

/-- The seeded accumulator holds the global key of every valid state, with
value zero. -/
theorem seedStates_find_nodes {name s : String} {vs : List String}
    (h : s ∈ vs) : dictFind (seedStates name vs) (nodesKey s) = some 0 :=
  dictFind_eq_zero (seedStates_all_zero name vs)
    (seedFold_contains_nodes name vs [] s h)



/-- The seeded accumulator holds the provider key of every valid state,
with value zero. -/
theorem seedStates_find_provider {name s : String} {vs : List String}
    (h : s ∈ vs) :
    dictFind (seedStates name vs) (providerKey name s) = some 0 :=
  dictFind_eq_zero (seedStates_all_zero name vs)
    (seedFold_contains_provider name vs [] s h)

/-- The seeded accumulator holds no label-scoped key at all. -/
theorem seedStates_find_label_none (name l s : String) (vs : List String) :
    dictFind (seedStates name vs) (labelKey l s) = none := by
  apply dictFind_none_of_forall_ne
  apply seedFold_forall_keys (Q := fun k => k ≠ labelKey l s) name vs []
    (fun s2 _ => ⟨nodesKey_ne_labelKey s2 l s,
      Ne.symm (labelKey_ne_providerKey l s name s2)⟩)
  intro kv hkv
  simp at hkv

/-! Lemmas about the scan loop of updateNodeStats. -/

/-- Scanning a node whose global key is present runs the two guarded
updates after the unguarded increment. -/
theorem scanNode_eq_of_found (d : List (String × Int)) (n : Node) (v : Int)
    (hf : dictFind d (nodesKey n.state) = some v) :
    scanNode d n =
      Except.ok
        (bump (bump (dictSet d (nodesKey n.state) (v + 1))
          (labelKey n.type n.state)) (providerKey n.provider n.state)) := by
  unfold scanNode bump
  simp only [hf]

/-- Scanning a node whose global key is absent raises KeyError. -/
theorem scanNode_err (d : List (String × Int)) (n : Node)
    (hf : dictFind d (nodesKey n.state) = none) :
    scanNode d n = Except.error (nodesKey n.state) := by
  unfold scanNode
  simp only [hf]

/-- Inversion of a successful scan step. -/
theorem scanNode_ok_inv {d d' : List (String × Int)} {n : Node}
    (h : scanNode d n = Except.ok d') :
    ∃ v, dictFind d (nodesKey n.state) = some v ∧
      d' = bump (bump (dictSet d (nodesKey n.state) (v + 1))
        (labelKey n.type n.state)) (providerKey n.provider n.state) := by
  cases hf : dictFind d (nodesKey n.state) with
  | none =>
    rw [scanNode_err d n hf] at h
    cases h
  | some v =>
    rw [scanNode_eq_of_found d n v hf] at h
    exact ⟨v, rfl, (Except.ok.inj h).symm⟩

/-- Bumping a key other than the one looked up changes nothing there. -/
theorem bump_find_ne (d : List (String × Int)) {k k' : String}
    (h : k' ≠ k) : dictFind (bump d k) k' = dictFind d k' := by
  unfold bump
  cases dictFind d k with
  | none => exact dictFind_set_ne d 1 h
  | some v => exact dictFind_set_ne d (v + 1) h

/-- Bumping keeps every present key present. -/
theorem bump_isSome (d : List (String × Int)) (k k' : String)
    (h : (dictFind d k').isSome) : (dictFind (bump d k) k').isSome := by
  unfold bump
  cases dictFind d k with
  | none => exact dictFind_isSome_set d k k' 1 h
  | some v => exact dictFind_isSome_set d k k' (v + 1) h

/-- Bumping a key outside a family leaves the family sum unchanged. -/
theorem fsum_bump_not (P : String → Bool) (d : List (String × Int))
    {k : String} (h : P k = false) : fsum P (bump d k) = fsum P d := by
  unfold bump
  cases dictFind d k with
  | none => exact fsum_set_not P d 1 h
  | some v => exact fsum_set_not P d (v + 1) h

/-- A node whose global key is present scans successfully. -/
theorem scanNode_ok (d : List (String × Int)) (n : Node)
    (h : (dictFind d (nodesKey n.state)).isSome) :
    ∃ d', scanNode d n = Except.ok d' := by
  obtain ⟨v, hv⟩ := Option.isSome_iff_exists.mp h
  exact ⟨_, scanNode_eq_of_found d n v hv⟩

/-- A successful scan step keeps every present key present. -/
theorem scanNode_isSome {d d' : List (String × Int)} {n : Node}
    (h : scanNode d n = Except.ok d') (k : String)
    (hs : (dictFind d k).isSome) : (dictFind d' k).isSome := by
  obtain ⟨v, hf, rfl⟩ := scanNode_ok_inv h
  exact bump_isSome _ _ _ (bump_isSome _ _ _
    (dictFind_isSome_set _ _ _ _ hs))

/-- A successful scan step does not touch keys other than the three keys of
the scanned record. -/
theorem scanNode_untouched {d d' : List (String × Int)} {n : Node}
    (h : scanNode d n = Except.ok d') (k : String)
    (h1 : k ≠ nodesKey n.state) (h2 : k ≠ labelKey n.type n.state)
    (h3 : k ≠ providerKey n.provider n.state) :
    dictFind d' k = dictFind d k := by
  obtain ⟨v, hf, rfl⟩ := scanNode_ok_inv h
  rw [bump_find_ne _ h3, bump_find_ne _ h2, dictFind_set_ne _ _ h1]

/-- A successful scan step adds exactly one to the sum over a key family
that contains the record's global key but neither its label key nor its
provider key. -/
theorem scanNode_fsum {P : String → Bool} {d d' : List (String × Int)}
    {n : Node} (h : scanNode d n = Except.ok d')
    (hP1 : P (nodesKey n.state) = true)
    (hP2 : P (labelKey n.type n.state) = false)
    (hP3 : P (providerKey n.provider n.state) = false) :
    fsum P d' = fsum P d + 1 := by
  obtain ⟨v, hf, rfl⟩ := scanNode_ok_inv h
  rw [fsum_bump_not P _ hP3, fsum_bump_not P _ hP2,
    fsum_set_found P d (v + 1) hP1 hf]
  omega

/-- The whole scan succeeds when every record's state has its global key
present - in particular when every state is in the seeded valid-state
enumeration. -/
theorem scanNodes_ok (vs : List String) (nodes : List Node)
    (d : List (String × Int)) :
    (∀ n ∈ nodes, n.state ∈ vs) →
    (∀ s ∈ vs, (dictFind d (nodesKey s)).isSome) →
    ∃ d', scanNodes nodes d = Except.ok d' := by
  induction nodes generalizing d with
  | nil => exact fun _ _ => ⟨d, rfl⟩
  | cons n rest ih =>
    intro hn hd
    obtain ⟨d1, hd1⟩ := scanNode_ok d n
      (hd n.state (hn n (List.mem_cons_self _ _)))
    obtain ⟨d', hd'⟩ := ih d1
      (fun n2 hn2 => hn n2 (List.mem_cons_of_mem _ hn2))
      (fun s hs => scanNode_isSome hd1 (nodesKey s) (hd s hs))
    refine ⟨d', ?_⟩
    rw [scanNodes, hd1]
    exact hd'

/-- A successful scan keeps every present key present. -/
theorem scanNodes_isSome (nodes : List Node) (d d' : List (String × Int))
    (k : String) :
    scanNodes nodes d = Except.ok d' →
    (dictFind d k).isSome → (dictFind d' k).isSome := by
  induction nodes generalizing d with
  | nil =>
    intro h hs
    cases h
    exact hs
  | cons n rest ih =>
    intro h hs
    rw [scanNodes] at h
    cases hd1 : scanNode d n with
    | error e => rw [hd1] at h; cases h
    | ok d1 =>
      rw [hd1] at h
      exact ih d1 h (scanNode_isSome hd1 k hs)

/-- A successful scan does not touch a key that is none of the three keys
of any scanned record. -/
theorem scanNodes_untouched (nodes : List Node) (d d' : List (String × Int))
    (k : String) :
    scanNodes nodes d = Except.ok d' →
    (∀ n ∈ nodes, k ≠ nodesKey n.state ∧ k ≠ labelKey n.type n.state ∧
      k ≠ providerKey n.provider n.state) →
    dictFind d' k = dictFind d k := by
  induction nodes generalizing d with
  | nil =>
    intro h _
    cases h
    rfl
  | cons n rest ih =>
    intro h hk
    rw [scanNodes] at h
    cases hd1 : scanNode d n with
    | error e => rw [hd1] at h; cases h
    | ok d1 =>
      rw [hd1] at h
      have hn := hk n (List.mem_cons_self _ _)
      rw [ih d1 h (fun n2 hn2 => hk n2 (List.mem_cons_of_mem _ hn2))]
      exact scanNode_untouched hd1 k hn.1 hn.2.1 hn.2.2

/-- A successful scan adds the number of scanned records to the sum over a
key family that contains every record's global key and no record's label or
provider key. -/
theorem scanNodes_fsum (P : String → Bool) (nodes : List Node)
    (d d' : List (String × Int)) :
    scanNodes nodes d = Except.ok d' →
    (∀ n ∈ nodes, P (nodesKey n.state) = true ∧
      P (labelKey n.type n.state) = false ∧
      P (providerKey n.provider n.state) = false) →
    fsum P d' = fsum P d + nodes.length := by
  induction nodes generalizing d with
  | nil =>
    intro h _
    cases h
    simp
  | cons n rest ih =>
    intro h hP
    rw [scanNodes] at h
    cases hd1 : scanNode d n with
    | error e => rw [hd1] at h; cases h
    | ok d1 =>
      rw [hd1] at h
      have hn := hP n (List.mem_cons_self _ _)
      have h1 := scanNode_fsum hd1 hn.1 hn.2.1 hn.2.2
      have h2 := ih d1 h (fun n2 hn2 => hP n2 (List.mem_cons_of_mem _ hn2))
      rw [h2, h1]
      simp only [List.length_cons]
      push_cast
      omega

/-- With no sink, updateNodeStats is a pure no-op: no emissions and the
iterator untouched. -/
theorem updateNodeStats_no_sink (vs : List String) (provider : Provider)
    (nodes : List Node) :
    updateNodeStats false vs provider nodes = Except.ok ([], 0) := rfl

/-- With a sink, a successful scan determines the emissions: one gauge per
accumulated key in dict order, then the max_servers gauge; the whole
iterator was consumed. -/
theorem updateNodeStats_of_scan {vs : List String} {provider : Provider}
    {nodes : List Node} {d' : List (String × Int)}
    (h : scanNodes nodes (seedStates provider.name vs) = Except.ok d') :
    updateNodeStats true vs provider nodes =
      Except.ok
        ((d'.map (fun kv => Emission.gauge kv.1 kv.2)) ++
          [Emission.gauge (maxServersKey provider.name) (maxServersSum provider)],
          nodes.length) := by
  unfold updateNodeStats
  simp [h]

/-- With a sink, a KeyError in the scan aborts updateNodeStats. -/
theorem updateNodeStats_of_scan_err {vs : List String} {provider : Provider}
    {nodes : List Node} {e : String}
    (h : scanNodes nodes (seedStates provider.name vs) = Except.error e) :
    updateNodeStats true vs provider nodes = Except.error e := by
  unfold updateNodeStats
  simp [h]

/-- The global key of a state of the enumeration is in the family. -/
theorem isNodesKeyOf_nodesKey {vs : List String} {s : String} (h : s ∈ vs) :
    isNodesKeyOf vs (nodesKey s) = true := by
  simp only [isNodesKeyOf, List.any_eq_true]
  exact ⟨s, h, by simp⟩

/-- Label-scoped keys are outside the global family. -/
theorem isNodesKeyOf_labelKey (vs : List String) (l s : String) :
    isNodesKeyOf vs (labelKey l s) = false := by
  simp only [isNodesKeyOf, List.any_eq_false]
  intro s2 _
  simpa using Ne.symm (nodesKey_ne_labelKey s2 l s)

/-- Provider-scoped keys are outside the global family. -/
theorem isNodesKeyOf_providerKey (vs : List String) (p s : String) :
    isNodesKeyOf vs (providerKey p s) = false := by
  simp only [isNodesKeyOf, List.any_eq_false]
  intro s2 _
  simpa using Ne.symm (nodesKey_ne_providerKey s2 p s)

/-- The max_servers key is outside the global family. -/
theorem isNodesKeyOf_maxServersKey (vs : List String) (p : String) :
    isNodesKeyOf vs (maxServersKey p) = false := by
  simp only [isNodesKeyOf, List.any_eq_false]
  intro s2 _
  simpa using Ne.symm (nodesKey_ne_maxServersKey s2 p)

/-- The global gauge sum of the per-key gauges of a dict is the dict's
family sum. -/
theorem globalGaugeSum_map (vs : List String) (d : List (String × Int)) :
    globalGaugeSum vs (d.map (fun kv => Emission.gauge kv.1 kv.2)) =
      fsum (isNodesKeyOf vs) d := by
  induction d with
  | nil => rfl
  | cons kv rest ih =>
    obtain ⟨k, v⟩ := kv
    simp only [globalGaugeSum, fsum, List.map_cons, List.filterMap_cons,
      List.filter_cons] at ih ⊢
    cases h : isNodesKeyOf vs k with
    | false =>
      simp only [h, Bool.false_eq_true, if_false]
      exact ih
    | true =>
      simp only [h, if_true, List.map_cons, List.sum_cons]
      omega

/-- Appending emissions adds their global gauge sums. -/
theorem globalGaugeSum_append (vs : List String) (es1 es2 : List Emission) :
    globalGaugeSum vs (es1 ++ es2) =
      globalGaugeSum vs es1 + globalGaugeSum vs es2 := by
  simp [globalGaugeSum, List.filterMap_append]

/-- The max_servers gauge contributes nothing to the global gauge sum. -/
theorem globalGaugeSum_maxServers (vs : List String) (p : String) (m : Int) :
    globalGaugeSum vs [Emission.gauge (maxServersKey p) m] = 0 := by
  simp [globalGaugeSum, isNodesKeyOf_maxServersKey]

/-- Bumping an absent key stores 1 - the lazy first-sight initialization. -/
theorem bump_find_self_none (d : List (String × Int)) (k : String)
    (h : dictFind d k = none) : dictFind (bump d k) k = some 1 := by
  unfold bump
  rw [h, dictFind_set_self]

/-- The filtered sum of truthy pool limits equals the sum of the limits
with absent limits counted as zero. -/
theorem sum_truthy_pools (ps : List Pool) :
    ((ps.filter (fun p => pyTruthyInt p.max_servers)).map
      (fun p => p.max_servers.getD 0)).sum =
    (ps.map (fun p => p.max_servers.getD 0)).sum := by
  induction ps with
  | nil => rfl
  | cons p rest ih =>
    rw [List.filter_cons]
    cases ht : pyTruthyInt p.max_servers with
    | true =>
      simp [ih]
    | false =>
      have hz : p.max_servers.getD 0 = 0 := by
        cases hm : p.max_servers with
        | none => rfl
        | some n =>
          rw [hm] at ht
          simp only [pyTruthyInt] at ht
          simp only [hm, Option.getD_some]
          simpa using ht
      simp [ih, hz]

/-- The max_servers value computed by the code equals the specified sum of
pool limits with absent limits contributing zero. -/
theorem maxServersSum_eq (provider : Provider) :
    maxServersSum provider =
      (provider.pools.map (fun kv => kv.2.max_servers.getD 0)).sum := by
  unfold maxServersSum
  rw [sum_truthy_pools, List.map_map]
  rfl

/-- A key found in the final accumulator yields a gauge among the
emissions of updateNodeStats. -/
theorem gauge_mem_of_find {d : List (String × Int)} {k : String} {v : Int}
    (tail : List Emission) (h : dictFind d k = some v) :
    Emission.gauge k v ∈ (d.map (fun kv => Emission.gauge kv.1 kv.2)) ++ tail :=
  List.mem_append_left _ (List.mem_map.mpr ⟨(k, v), dictFind_mem h, rfl⟩)

/-! Claim theorems. -/

/-- C2.  With no sink configured, recordLaunchStats and updateNodeStats are
pure no-ops: no timing, increment or gauge is emitted, and the node
iterator is not advanced (zero records consumed), whatever the inputs. -/
theorem reporter_noop_without_sink (subkey : String) (dt : Int)
    (image_name provider_name node_az requestor : String)
    (validStates : List String) (provider : Provider) (nodes : List Node) :
    recordLaunchStats false subkey dt image_name provider_name node_az
      requestor = [] ∧
    updateNodeStats false validStates provider nodes = Except.ok ([], 0) :=
  ⟨rfl, rfl⟩

/-- C3.  With a sink configured, for any node records whose states lie in
the valid-state enumeration, updateNodeStats succeeds and the values of the
emitted gauges whose keys are global per-state keys sum to the total number
of records. -/
theorem updateNodeStats_global_gauge_sum (validStates : List String)
    (provider : Provider) (nodes : List Node)
    (h : ∀ n ∈ nodes, n.state ∈ validStates) :
    ∃ es, updateNodeStats true validStates provider nodes =
        Except.ok (es, nodes.length) ∧
      globalGaugeSum validStates es = (nodes.length : Int) := by
  obtain ⟨d', hd'⟩ := scanNodes_ok validStates nodes
    (seedStates provider.name validStates) h
    (fun s hs => by rw [seedStates_find_nodes hs]; rfl)
  refine ⟨_, updateNodeStats_of_scan hd', ?_⟩
  rw [globalGaugeSum_append, globalGaugeSum_maxServers, globalGaugeSum_map]
  have hsum := scanNodes_fsum (isNodesKeyOf validStates) nodes _ _ hd'
    (fun n hn => ⟨isNodesKeyOf_nodesKey (h n hn),
      isNodesKeyOf_labelKey validStates _ _,
      isNodesKeyOf_providerKey validStates _ _⟩)
  have hzero := fsum_zero (isNodesKeyOf validStates) _
    (seedStates_all_zero provider.name validStates)
  rw [hsum, hzero]
  omega

/-- Witness for C3 at the spec's worked example: two records, three valid
states, sum of global gauges is 2. -/
theorem updateNodeStats_global_gauge_sum_witness :
    ∃ es, updateNodeStats true ["ready", "building", "deleting"]
        { name := "p1", pools := [("pool1", { max_servers := some 5 }),
          ("pool2", { max_servers := none })] }
        [{ state := "ready", type := "a", provider := "p1" },
         { state := "building", type := "a", provider := "p1" }] =
        Except.ok (es,
          ([{ state := "ready", type := "a", provider := "p1" },
            { state := "building", type := "a", provider := "p1" }] :
            List Node).length) ∧
      globalGaugeSum ["ready", "building", "deleting"] es =
        (([{ state := "ready", type := "a", provider := "p1" },
           { state := "building", type := "a", provider := "p1" }] :
           List Node).length : Int) :=
  updateNodeStats_global_gauge_sum ["ready", "building", "deleting"] _ _
    (by decide)

/-- C7.  With a sink configured, updateNodeStats ends its emissions with a
single max_servers gauge keyed by the provider's name whose value is the
sum of the configured pool limits, a pool with no (or zero) limit
contributing zero. -/
theorem updateNodeStats_max_servers (validStates : List String)
    (provider : Provider) (nodes : List Node)
    (h : ∀ n ∈ nodes, n.state ∈ validStates) :
    ∃ es, updateNodeStats true validStates provider nodes =
        Except.ok (es, nodes.length) ∧
      es.getLast? = some (Emission.gauge (maxServersKey provider.name)
        ((provider.pools.map (fun kv => kv.2.max_servers.getD 0)).sum)) := by
  obtain ⟨d', hd'⟩ := scanNodes_ok validStates nodes
    (seedStates provider.name validStates) h
    (fun s hs => by rw [seedStates_find_nodes hs]; rfl)
  refine ⟨_, updateNodeStats_of_scan hd', ?_⟩
  rw [← maxServersSum_eq provider]
  exact List.getLast?_concat _

/-- Witness for C7 at the spec's worked example: limits 5 and absent sum
to 5. -/
theorem updateNodeStats_max_servers_witness :
    ∃ es, updateNodeStats true ["ready", "building", "deleting"]
        { name := "p1", pools := [("pool1", { max_servers := some 5 }),
          ("pool2", { max_servers := none })] }
        [{ state := "ready", type := "a", provider := "p1" }] =
        Except.ok (es,
          ([{ state := "ready", type := "a", provider := "p1" }] :
            List Node).length) ∧
      es.getLast? = some (Emission.gauge (maxServersKey "p1")
        ((([("pool1", ({ max_servers := some 5 } : Pool)),
            ("pool2", ({ max_servers := none } : Pool))]).map
          (fun kv => kv.2.max_servers.getD 0)).sum)) :=
  updateNodeStats_max_servers ["ready", "building", "deleting"] _ _
    (by decide)

/-- C1 counterexample.  A record whose state is outside the valid-state
enumeration makes updateNodeStats raise a KeyError on the unseeded global
key, contradicting the claim that no input record, however unexpected its
state, causes an exception. -/
theorem updateNodeStats_raises_on_unknown_state_cex :
    updateNodeStats true ["ready"] { name := "p", pools := [] }
      [{ state := "bogus", type := "lab", provider := "q" }] =
      Except.error "nodepool.nodes.bogus" := by
  rfl

/-- C1 as amended.  updateNodeStats completes without raising whenever
every record's state is in the valid-state enumeration, however unexpected
the record's label and provider are; and in the scan step, a label or
provider key that is not already in the accumulator is initialized to 1 on
first sight rather than failing.  A record whose state is outside the
enumeration still raises (see the counterexample). -/
theorem updateNodeStats_no_raise_known_states (statsd : Bool)
    (validStates : List String) (provider : Provider) (nodes : List Node)
    (d : List (String × Int)) (n : Node) (v : Int)
    (hstates : ∀ x ∈ nodes, x.state ∈ validStates)
    (hfind : dictFind d (nodesKey n.state) = some v)
    (hlab : dictFind d (labelKey n.type n.state) = none)
    (hprov : dictFind d (providerKey n.provider n.state) = none) :
    (∃ r, updateNodeStats statsd validStates provider nodes = Except.ok r) ∧
    ∃ d', scanNode d n = Except.ok d' ∧
      dictFind d' (labelKey n.type n.state) = some 1 ∧
      dictFind d' (providerKey n.provider n.state) = some 1 := by
  constructor
  · cases statsd with
    | false => exact ⟨([], 0), rfl⟩
    | true =>
      obtain ⟨d', hd'⟩ := scanNodes_ok validStates nodes
        (seedStates provider.name validStates) hstates
        (fun s hs => by rw [seedStates_find_nodes hs]; rfl)
      exact ⟨_, updateNodeStats_of_scan hd'⟩
  · refine ⟨_, scanNode_eq_of_found d n v hfind, ?_, ?_⟩
    · rw [bump_find_ne _ (labelKey_ne_providerKey n.type n.state n.provider
        n.state)]
      apply bump_find_self_none
      rw [dictFind_set_ne _ _ (Ne.symm (nodesKey_ne_labelKey n.state n.type
        n.state))]
      exact hlab
    · apply bump_find_self_none
      rw [bump_find_ne _ (Ne.symm (labelKey_ne_providerKey n.type n.state
        n.provider n.state)),
        dictFind_set_ne _ _ (Ne.symm (nodesKey_ne_providerKey n.state
          n.provider n.state))]
      exact hprov

/-- Witness for the amended C1: one record with an unknown label and an
unknown provider but a valid state; the scan initializes both keys to 1. -/
theorem updateNodeStats_no_raise_known_states_witness :
    (∃ r, updateNodeStats true ["ready"] { name := "p", pools := [] }
      [{ state := "ready", type := "lab", provider := "q" }] =
      Except.ok r) ∧
    ∃ d', scanNode [("nodepool.nodes.ready", 0)]
        { state := "ready", type := "lab", provider := "q" } =
        Except.ok d' ∧
      dictFind d' (labelKey "lab" "ready") = some 1 ∧
      dictFind d' (providerKey "q" "ready") = some 1 :=
  updateNodeStats_no_raise_known_states true ["ready"]
    { name := "p", pools := [] }
    [{ state := "ready", type := "lab", provider := "q" }]
    [("nodepool.nodes.ready", 0)]
    { state := "ready", type := "lab", provider := "q" } 0
    (by decide) (by decide) (by decide) (by decide)

/-- C4 as amended.  With a sink configured and every record's state in the
valid-state enumeration, updateNodeStats emits, for every valid state, both
a global gauge and a provider-scoped gauge for the configured provider; the
global gauge is 0 when no record has that state, and the provider-scoped
gauge is 0 when no record's provider/state pair renders to that key (label
and provider segments are interpolated unsanitized, so a record whose
fields contain dots can collide with a seeded key - see the
counterexample). -/
theorem updateNodeStats_seeded_gauges (validStates : List String)
    (provider : Provider) (nodes : List Node)
    (h : ∀ n ∈ nodes, n.state ∈ validStates) :
    ∃ es, updateNodeStats true validStates provider nodes =
        Except.ok (es, nodes.length) ∧
      ∀ s ∈ validStates,
        (∃ v, Emission.gauge (nodesKey s) v ∈ es) ∧
        (∃ v, Emission.gauge (providerKey provider.name s) v ∈ es) ∧
        ((∀ n ∈ nodes, n.state ≠ s) →
          Emission.gauge (nodesKey s) 0 ∈ es) ∧
        ((∀ n ∈ nodes,
            providerKey n.provider n.state ≠ providerKey provider.name s) →
          Emission.gauge (providerKey provider.name s) 0 ∈ es) := by
  obtain ⟨d', hd'⟩ := scanNodes_ok validStates nodes
    (seedStates provider.name validStates) h
    (fun s hs => by rw [seedStates_find_nodes hs]; rfl)
  refine ⟨_, updateNodeStats_of_scan hd', ?_⟩
  intro s hs
  refine ⟨?_, ?_, ?_, ?_⟩
  · have h1 : (dictFind d' (nodesKey s)).isSome :=
      scanNodes_isSome nodes _ d' (nodesKey s) hd'
        (by rw [seedStates_find_nodes hs]; rfl)
    obtain ⟨v, hv⟩ := Option.isSome_iff_exists.mp h1
    exact ⟨v, gauge_mem_of_find _ hv⟩
  · have h1 : (dictFind d' (providerKey provider.name s)).isSome :=
      scanNodes_isSome nodes _ d' (providerKey provider.name s) hd'
        (by rw [seedStates_find_provider hs]; rfl)
    obtain ⟨v, hv⟩ := Option.isSome_iff_exists.mp h1
    exact ⟨v, gauge_mem_of_find _ hv⟩
  · intro hnone
    have hu := scanNodes_untouched nodes _ d' (nodesKey s) hd'
      (fun n hn => ⟨fun he => hnone n hn (nodesKey_inj he).symm,
        nodesKey_ne_labelKey s n.type n.state,
        nodesKey_ne_providerKey s n.provider n.state⟩)
    have hv : dictFind d' (nodesKey s) = some 0 := by
      rw [hu, seedStates_find_nodes hs]
    exact gauge_mem_of_find _ hv
  · intro hnone
    have hu := scanNodes_untouched nodes _ d'
      (providerKey provider.name s) hd'
      (fun n hn => ⟨Ne.symm (nodesKey_ne_providerKey n.state provider.name s),
        Ne.symm (labelKey_ne_providerKey n.type n.state provider.name s),
        Ne.symm (hnone n hn)⟩)
    have hv : dictFind d' (providerKey provider.name s) = some 0 := by
      rw [hu, seedStates_find_provider hs]
    exact gauge_mem_of_find _ hv

/-- Witness for the amended C4 at the spec's worked example. -/
theorem updateNodeStats_seeded_gauges_witness :
    ∃ es, updateNodeStats true ["ready", "building", "deleting"]
        { name := "p1", pools := [] }
        [{ state := "ready", type := "a", provider := "p1" }] =
        Except.ok (es,
          ([{ state := "ready", type := "a", provider := "p1" }] :
            List Node).length) ∧
      ∀ s ∈ ["ready", "building", "deleting"],
        (∃ v, Emission.gauge (nodesKey s) v ∈ es) ∧
        (∃ v, Emission.gauge (providerKey "p1" s) v ∈ es) ∧
        ((∀ n ∈ ([{ state := "ready", type := "a", provider := "p1" }] :
            List Node), n.state ≠ s) →
          Emission.gauge (nodesKey s) 0 ∈ es) ∧
        ((∀ n ∈ ([{ state := "ready", type := "a", provider := "p1" }] :
            List Node),
            providerKey n.provider n.state ≠ providerKey "p1" s) →
          Emission.gauge (providerKey "p1" s) 0 ∈ es) :=
  updateNodeStats_seeded_gauges ["ready", "building", "deleting"]
    { name := "p1", pools := [] }
    [{ state := "ready", type := "a", provider := "p1" }] (by decide)

/-- C4 counterexample.  No record has state c, yet the provider-scoped
gauge for state c is emitted with value 1, not 0: the single record's
(provider, state) pair (a, b.nodes.c) renders to the same key string as
(a.nodes.b, c), because provider segments are interpolated unsanitized. -/
theorem updateNodeStats_seeded_zero_collision_cex :
    updateNodeStats true ["c", "b.nodes.c"]
      { name := "a.nodes.b", pools := [] }
      [{ state := "b.nodes.c", type := "t", provider := "a" }] =
      Except.ok (collisionGauges, 1) ∧
    Node.state { state := "b.nodes.c", type := "t", provider := "a" } ≠ "c" ∧
    Emission.gauge (providerKey "a.nodes.b" "c") 1 ∈ collisionGauges ∧
    Emission.gauge (providerKey "a.nodes.b" "c") 0 ∉ collisionGauges := by
  refine ⟨rfl, by decide, by decide, by decide⟩

/-- C9 as amended.  updateNodeStats never pre-seeds a label/state key, and
a label-scoped gauge for a key K is emitted only when some record's
label/state pair renders to K; since label segments are interpolated
unsanitized, a record whose label or state contains dots can render to the
key of a different (label, state) combination (see the counterexample), so
the zero-matching condition is stated on rendered keys. -/
theorem updateNodeStats_no_label_gauge_without_matching_key
    (validStates : List String) (provider : Provider) (nodes : List Node)
    (l s : String)
    (h : ∀ n ∈ nodes, n.state ∈ validStates)
    (hno : ∀ n ∈ nodes, labelKey n.type n.state ≠ labelKey l s) :
    dictFind (seedStates provider.name validStates) (labelKey l s) = none ∧
    ∃ es, updateNodeStats true validStates provider nodes =
        Except.ok (es, nodes.length) ∧
      ∀ v, Emission.gauge (labelKey l s) v ∉ es := by
  refine ⟨seedStates_find_label_none provider.name l s validStates, ?_⟩
  obtain ⟨d', hd'⟩ := scanNodes_ok validStates nodes
    (seedStates provider.name validStates) h
    (fun s2 hs2 => by rw [seedStates_find_nodes hs2]; rfl)
  refine ⟨_, updateNodeStats_of_scan hd', ?_⟩
  intro v hv
  have hu := scanNodes_untouched nodes _ d' (labelKey l s) hd'
    (fun n hn => ⟨Ne.symm (nodesKey_ne_labelKey n.state l s),
      Ne.symm (hno n hn),
      labelKey_ne_providerKey l s n.provider n.state⟩)
  have hnone : dictFind d' (labelKey l s) = none := by
    rw [hu, seedStates_find_label_none]
  rcases List.mem_append.mp hv with h1 | h1
  · obtain ⟨⟨k0, v0⟩, hkv, he⟩ := List.mem_map.mp h1
    simp only [Emission.gauge.injEq] at he
    obtain ⟨he1, he2⟩ := he
    subst he1
    have hs2 := dictFind_isSome_of_mem hkv
    rw [hnone] at hs2
    cases hs2
  · have he : Emission.gauge (labelKey l s) v =
        Emission.gauge (maxServersKey provider.name)
          (maxServersSum provider) := by
      simpa using h1
    simp only [Emission.gauge.injEq] at he
    exact labelKey_ne_maxServersKey l s provider.name he.1

/-- Witness for the amended C9: a record with label lab never produces a
gauge for the label other. -/
theorem updateNodeStats_no_label_gauge_witness :
    dictFind (seedStates "p" ["ready"]) (labelKey "other" "ready") = none ∧
    ∃ es, updateNodeStats true ["ready"] { name := "p", pools := [] }
        [{ state := "ready", type := "lab", provider := "q" }] =
        Except.ok (es,
          ([{ state := "ready", type := "lab", provider := "q" }] :
            List Node).length) ∧
      ∀ v, Emission.gauge (labelKey "other" "ready") v ∉ es :=
  updateNodeStats_no_label_gauge_without_matching_key ["ready"]
    { name := "p", pools := [] }
    [{ state := "ready", type := "lab", provider := "q" }]
    "other" "ready" (by decide) (by decide)

/-- C9 counterexample.  The combination (label a.nodes.b, state c) has zero
matching records - the only record has label a and state b.nodes.c - yet a
gauge for its label key is emitted, because the record's unsanitized
label/state pair renders to the same key string. -/
theorem updateNodeStats_label_gauge_collision_cex :
    updateNodeStats true ["b.nodes.c"] { name := "p", pools := [] }
      [{ state := "b.nodes.c", type := "a", provider := "q" }] =
      Except.ok (labelCollisionGauges, 1) ∧
    ¬(Node.type { state := "b.nodes.c", type := "a", provider := "q" } =
        "a.nodes.b" ∧
      Node.state { state := "b.nodes.c", type := "a", provider := "q" } =
        "c") ∧
    Emission.gauge (labelKey "a.nodes.b" "c") 1 ∈ labelCollisionGauges := by
  refine ⟨rfl, by decide, by decide⟩

/-- The character data of a single-character replace. -/
theorem pyReplaceChar_data (s : String) (pat sub : Char) :
    (pyReplaceChar s pat sub).data =
      s.data.map (fun c => if c = pat then sub else c) := rfl

/-- C5.  For every non-empty requestor, the requestor-scoped key emitted by
recordLaunchStats carries the sanitized requestor, and the sanitized
segment contains neither a dot nor a colon. -/
theorem recordLaunchStats_requestor_sanitized
    (subkey image_name provider_name node_az requestor : String)
    (h : requestor ≠ "") :
    ("nodepool.launch.requestor." ++ sanitizeRequestor requestor ++ "." ++
        subkey) ∈
      launchKeys subkey image_name provider_name node_az requestor ∧
    noDotColon (sanitizeRequestor requestor) = true := by
  constructor
  · simp [launchKeys, h]
  · unfold noDotColon sanitizeRequestor
    rw [pyReplaceChar_data, List.all_eq_true]
    intro c hc
    rw [pyReplaceChar_data, List.map_map] at hc
    obtain ⟨c1, _, rfl⟩ := List.mem_map.mp hc
    by_cases h1 : c1 = '.'
    · simp [h1]
    · by_cases h2 : c1 = ':'
      · simp [h1, h2]
      · simp [h1, h2]

/-- Witness for C5 at the spec's example requestor, which contains both a
colon and a dot. -/
theorem recordLaunchStats_requestor_sanitized_witness :
    ("nodepool.launch.requestor." ++ sanitizeRequestor "user:a.b" ++ "." ++
        "success") ∈
      launchKeys "success" "img1" "p1" "az1" "user:a.b" ∧
    noDotColon (sanitizeRequestor "user:a.b") = true :=
  recordLaunchStats_requestor_sanitized "success" "img1" "p1" "az1"
    "user:a.b" (by decide)

/-- Character counts add up over string concatenation. -/
theorem charCount_append (c : Char) (s t : String) :
    charCount c (s ++ t) = charCount c s + charCount c t := by
  unfold charCount
  rw [strData_append, List.count_append]

/-- C10.  recordLaunchStats sanitizes only the requestor segment: the
subkey, image name, provider name and availability zone are interpolated
verbatim, so each of the four non-requestor keys is in the key set and its
dot and colon counts are exactly the fixed separators plus the counts of
the interpolated segments - no '.' or ':' of those segments is
rewritten. -/
theorem recordLaunchStats_segments_verbatim
    (subkey image_name provider_name node_az requestor : String)
    (haz : node_az ≠ "") (hreq : requestor ≠ "") :
    (("nodepool.launch.provider." ++ provider_name ++ "." ++ subkey) ∈
      launchKeys subkey image_name provider_name node_az requestor ∧
    ("nodepool.launch.image." ++ image_name ++ "." ++ subkey) ∈
      launchKeys subkey image_name provider_name node_az requestor ∧
    ("nodepool.launch." ++ subkey) ∈
      launchKeys subkey image_name provider_name node_az requestor ∧
    ("nodepool.launch.provider." ++ provider_name ++ "." ++ node_az ++ "." ++
        subkey) ∈
      launchKeys subkey image_name provider_name node_az requestor) ∧
    (charCount ':'
        ("nodepool.launch.provider." ++ provider_name ++ "." ++ subkey) =
      charCount ':' provider_name + charCount ':' subkey ∧
    charCount ':' ("nodepool.launch.image." ++ image_name ++ "." ++ subkey) =
      charCount ':' image_name + charCount ':' subkey ∧
    charCount ':' ("nodepool.launch." ++ subkey) = charCount ':' subkey ∧
    charCount ':'
        ("nodepool.launch.provider." ++ provider_name ++ "." ++ node_az ++
          "." ++ subkey) =
      charCount ':' provider_name + charCount ':' node_az +
        charCount ':' subkey) ∧
    (charCount '.'
        ("nodepool.launch.provider." ++ provider_name ++ "." ++ subkey) =
      4 + charCount '.' provider_name + charCount '.' subkey ∧
    charCount '.' ("nodepool.launch.image." ++ image_name ++ "." ++ subkey) =
      4 + charCount '.' image_name + charCount '.' subkey ∧
    charCount '.' ("nodepool.launch." ++ subkey) =
      2 + charCount '.' subkey ∧
    charCount '.'
        ("nodepool.launch.provider." ++ provider_name ++ "." ++ node_az ++
          "." ++ subkey) =
      5 + charCount '.' provider_name + charCount '.' node_az +
        charCount '.' subkey) := by
  refine ⟨⟨?_, ?_, ?_, ?_⟩, ⟨?_, ?_, ?_, ?_⟩, ⟨?_, ?_, ?_, ?_⟩⟩
  · simp [launchKeys, haz, hreq]
  · simp [launchKeys, haz, hreq]
  · simp [launchKeys, haz, hreq]
  · simp [launchKeys, haz, hreq]
  all_goals
    simp only [charCount_append]
    have e1 : charCount ':' "nodepool.launch.provider." = 0 := rfl
    have e2 : charCount ':' "nodepool.launch.image." = 0 := rfl
    have e3 : charCount ':' "nodepool.launch." = 0 := rfl
    have e4 : charCount ':' "." = 0 := rfl
    have e5 : charCount '.' "nodepool.launch.provider." = 3 := rfl
    have e6 : charCount '.' "nodepool.launch.image." = 3 := rfl
    have e7 : charCount '.' "nodepool.launch." = 2 := rfl
    have e8 : charCount '.' "." = 1 := rfl
    omega

/-- Witness for C10 with dots and colons in every segment. -/
theorem recordLaunchStats_segments_verbatim_witness :
    (("nodepool.launch.provider." ++ "p.1:a" ++ "." ++ "ok:sub") ∈
      launchKeys "ok:sub" "img.2" "p.1:a" "az:1" "req" ∧
    ("nodepool.launch.image." ++ "img.2" ++ "." ++ "ok:sub") ∈
      launchKeys "ok:sub" "img.2" "p.1:a" "az:1" "req" ∧
    ("nodepool.launch." ++ "ok:sub") ∈
      launchKeys "ok:sub" "img.2" "p.1:a" "az:1" "req" ∧
    ("nodepool.launch.provider." ++ "p.1:a" ++ "." ++ "az:1" ++ "." ++
        "ok:sub") ∈
      launchKeys "ok:sub" "img.2" "p.1:a" "az:1" "req") ∧
    (charCount ':' ("nodepool.launch.provider." ++ "p.1:a" ++ "." ++
        "ok:sub") =
      charCount ':' "p.1:a" + charCount ':' "ok:sub" ∧
    charCount ':' ("nodepool.launch.image." ++ "img.2" ++ "." ++ "ok:sub") =
      charCount ':' "img.2" + charCount ':' "ok:sub" ∧
    charCount ':' ("nodepool.launch." ++ "ok:sub") =
      charCount ':' "ok:sub" ∧
    charCount ':' ("nodepool.launch.provider." ++ "p.1:a" ++ "." ++
        "az:1" ++ "." ++ "ok:sub") =
      charCount ':' "p.1:a" + charCount ':' "az:1" +
        charCount ':' "ok:sub") ∧
    (charCount '.' ("nodepool.launch.provider." ++ "p.1:a" ++ "." ++
        "ok:sub") =
      4 + charCount '.' "p.1:a" + charCount '.' "ok:sub" ∧
    charCount '.' ("nodepool.launch.image." ++ "img.2" ++ "." ++ "ok:sub") =
      4 + charCount '.' "img.2" + charCount '.' "ok:sub" ∧
    charCount '.' ("nodepool.launch." ++ "ok:sub") =
      2 + charCount '.' "ok:sub" ∧
    charCount '.' ("nodepool.launch.provider." ++ "p.1:a" ++ "." ++
        "az:1" ++ "." ++ "ok:sub") =
      5 + charCount '.' "p.1:a" + charCount '.' "az:1" +
        charCount '.' "ok:sub") :=
  recordLaunchStats_segments_verbatim "ok:sub" "img.2" "p.1:a" "az:1" "req"
    (by decide) (by decide)

/-- Optional values that pass the truthiness test are present. -/
theorem pyTruthyStr_isSome {v : Option String} (h : pyTruthyStr v = true) :
    v.isSome = true := by
  cases v with
  | none => cases h
  | some s => rfl

/-- C8.  get_client returns no sink exactly when neither the host nor the
port value is present (set to a non-empty string - Python's truthiness test
on the environment lookup treats an empty value as unset); otherwise it
builds a client carrying exactly the present values, leaving the other
argument unset for the backend's default.  The decision is a total
function: it cannot raise. -/
theorem get_client_none_iff (statsdHost statsdPort : Option String) :
    (get_client statsdHost statsdPort = none ↔
      pyTruthyStr statsdHost = false ∧ pyTruthyStr statsdPort = false) ∧
    (get_client statsdHost statsdPort = none ∨
      get_client statsdHost statsdPort =
        some { host := if pyTruthyStr statsdHost then statsdHost else none,
               port := if pyTruthyStr statsdPort then statsdPort else none }) := by
  cases hh : pyTruthyStr statsdHost with
  | true =>
    have hhs := pyTruthyStr_isSome hh
    cases hp : pyTruthyStr statsdPort with
    | true =>
      have hps := pyTruthyStr_isSome hp
      constructor
      · simp [get_client, hh, hp, hhs]
      · right
        simp [get_client, hh, hp, hhs]
    | false =>
      constructor
      · simp [get_client, hh, hp, hhs]
      · right
        simp [get_client, hh, hp, hhs]
  | false =>
    cases hp : pyTruthyStr statsdPort with
    | true =>
      have hps := pyTruthyStr_isSome hp
      constructor
      · simp [get_client, hh, hp, hps]
      · right
        simp [get_client, hh, hp, hps]
    | false =>
      constructor
      · simp [get_client, hh, hp]
      · left
        simp [get_client, hh, hp]

/-- Witness for C8 with only the host present. -/
theorem get_client_none_iff_witness :
    ((get_client (some "10.0.0.1") none = none ↔
      pyTruthyStr (some "10.0.0.1") = false ∧
        pyTruthyStr (none : Option String) = false)) ∧
    (get_client (some "10.0.0.1") none = none ∨
      get_client (some "10.0.0.1") none =
        some { host := if pyTruthyStr (some "10.0.0.1") then some "10.0.0.1"
                 else none,
               port := if pyTruthyStr (none : Option String) then none
                 else none }) :=
  get_client_none_iff (some "10.0.0.1") none

/-- Early characters of a six-fold append come from the first part. -/
theorem strGet_append6_left (a b c d e f : String) (i : Nat)
    (h : i < a.data.length) :
    (a ++ b ++ c ++ d ++ e ++ f).data[i]? = a.data[i]? := by
  have h1 : i < (a ++ b ++ c ++ d ++ e).data.length := by
    rw [strLen_append, strLen_append, strLen_append, strLen_append]; omega
  rw [strGet_append_left _ f _ h1, strGet_append5_left _ b c d e _ h]

/-- The provider key and the image key of a launch differ (character 16). -/
theorem launch_ne_12 (p i sub : String) :
    "nodepool.launch.provider." ++ p ++ "." ++ sub ≠
      "nodepool.launch.image." ++ i ++ "." ++ sub := by
  apply str_ne_of_get_ne 16
  rw [strGet_append4_left _ _ _ _ 16 (by decide),
    strGet_append4_left _ _ _ _ 16 (by decide)]
  decide

/-- The provider key and the bare key of a launch differ (length). -/
theorem launch_ne_13 (p sub : String) :
    "nodepool.launch.provider." ++ p ++ "." ++ sub ≠
      "nodepool.launch." ++ sub := by
  apply str_ne_of_len_ne
  simp [strLen_append]
  omega

/-- The provider key and the AZ key of a launch differ (length). -/
theorem launch_ne_14 (p az sub : String) :
    "nodepool.launch.provider." ++ p ++ "." ++ sub ≠
      "nodepool.launch.provider." ++ p ++ "." ++ az ++ "." ++ sub := by
  apply str_ne_of_len_ne
  simp [strLen_append]
  omega

/-- The provider key and the requestor key of a launch differ
(character 16). -/
theorem launch_ne_15 (p r sub : String) :
    "nodepool.launch.provider." ++ p ++ "." ++ sub ≠
      "nodepool.launch.requestor." ++ r ++ "." ++ sub := by
  apply str_ne_of_get_ne 16
  rw [strGet_append4_left _ _ _ _ 16 (by decide),
    strGet_append4_left _ _ _ _ 16 (by decide)]
  decide

/-- The image key and the bare key of a launch differ (length). -/
theorem launch_ne_23 (i sub : String) :
    "nodepool.launch.image." ++ i ++ "." ++ sub ≠
      "nodepool.launch." ++ sub := by
  apply str_ne_of_len_ne
  simp [strLen_append]
  omega

/-- The image key and the AZ key of a launch differ (character 16). -/
theorem launch_ne_24 (i p az sub : String) :
    "nodepool.launch.image." ++ i ++ "." ++ sub ≠
      "nodepool.launch.provider." ++ p ++ "." ++ az ++ "." ++ sub := by
  apply str_ne_of_get_ne 16
  rw [strGet_append4_left _ _ _ _ 16 (by decide),
    strGet_append6_left _ _ _ _ _ _ 16 (by decide)]
  decide

/-- The image key and the requestor key of a launch differ
(character 16). -/
theorem launch_ne_25 (i r sub : String) :
    "nodepool.launch.image." ++ i ++ "." ++ sub ≠
      "nodepool.launch.requestor." ++ r ++ "." ++ sub := by
  apply str_ne_of_get_ne 16
  rw [strGet_append4_left _ _ _ _ 16 (by decide),
    strGet_append4_left _ _ _ _ 16 (by decide)]
  decide

/-- The bare key and the AZ key of a launch differ (length). -/
theorem launch_ne_34 (p az sub : String) :
    "nodepool.launch." ++ sub ≠
      "nodepool.launch.provider." ++ p ++ "." ++ az ++ "." ++ sub := by
  apply str_ne_of_len_ne
  simp [strLen_append]
  omega

/-- The bare key and the requestor key of a launch differ (length). -/
theorem launch_ne_35 (r sub : String) :
    "nodepool.launch." ++ sub ≠
      "nodepool.launch.requestor." ++ r ++ "." ++ sub := by
  apply str_ne_of_len_ne
  simp [strLen_append]
  omega

/-- The AZ key and the requestor key of a launch differ (character 16). -/
theorem launch_ne_45 (p az r sub : String) :
    "nodepool.launch.provider." ++ p ++ "." ++ az ++ "." ++ sub ≠
      "nodepool.launch.requestor." ++ r ++ "." ++ sub := by
  apply str_ne_of_get_ne 16
  rw [strGet_append6_left _ _ _ _ _ _ 16 (by decide),
    strGet_append4_left _ _ _ _ 16 (by decide)]
  decide

/-- The key list of a launch never repeats a key. -/
theorem launchKeys_nodup
    (subkey image_name provider_name node_az requestor : String) :
    (launchKeys subkey image_name provider_name node_az requestor).Nodup := by
  unfold launchKeys
  by_cases haz : node_az = "" <;> by_cases hreq : requestor = "" <;>
    simp [haz, hreq, List.nodup_cons, launch_ne_12, launch_ne_13,
      launch_ne_14, launch_ne_15, launch_ne_23, launch_ne_24, launch_ne_25,
      launch_ne_34, launch_ne_35, launch_ne_45]

/-- The timing samples emitted by the per-key loop count occurrences of the
key in the key list. -/
theorem count_timing_flatMap (ks : List String) (dt : Int) (k : String) :
    ((ks.flatMap (fun key => [Emission.timing key dt, Emission.incr key])).count
      (Emission.timing k dt)) = ks.count k := by
  induction ks with
  | nil => rfl
  | cons k0 rest ih =>
    by_cases hk : k0 = k
    · subst hk
      simp [List.count_cons, ih]
    · simp [List.count_cons, ih, hk]

/-- The increments emitted by the per-key loop count occurrences of the key
in the key list. -/
theorem count_incr_flatMap (ks : List String) (dt : Int) (k : String) :
    ((ks.flatMap (fun key => [Emission.timing key dt, Emission.incr key])).count
      (Emission.incr k)) = ks.count k := by
  induction ks with
  | nil => rfl
  | cons k0 rest ih =>
    by_cases hk : k0 = k
    · subst hk
      simp [List.count_cons, ih]
    · simp [List.count_cons, ih, hk]

/-- C6.  The key set built by recordLaunchStats has exactly 3 keys with no
availability zone and 4 with one, plus one more for a non-empty requestor;
and for each key in the set exactly one timing sample with the given
duration and exactly one increment are emitted. -/
theorem recordLaunchStats_key_counts (subkey : String) (dt : Int)
    (image_name provider_name node_az requestor : String) :
    (launchKeys subkey image_name provider_name node_az requestor).length =
      ((if node_az ≠ "" then 4 else 3) +
        (if requestor ≠ "" then 1 else 0)) ∧
    ∀ k ∈ launchKeys subkey image_name provider_name node_az requestor,
      ((recordLaunchStats true subkey dt image_name provider_name node_az
          requestor).count (Emission.timing k dt)) = 1 ∧
      ((recordLaunchStats true subkey dt image_name provider_name node_az
          requestor).count (Emission.incr k)) = 1 := by
  constructor
  · unfold launchKeys
    by_cases haz : node_az = "" <;> by_cases hreq : requestor = "" <;>
      simp [haz, hreq]
  · intro k hk
    have h1 : recordLaunchStats true subkey dt image_name provider_name
        node_az requestor =
        (launchKeys subkey image_name provider_name node_az
          requestor).flatMap
          (fun key => [Emission.timing key dt, Emission.incr key]) := by
      simp [recordLaunchStats]
    rw [h1, count_timing_flatMap, count_incr_flatMap]
    have hc := List.count_eq_one_of_mem
      (launchKeys_nodup subkey image_name provider_name node_az requestor) hk
    exact ⟨hc, hc⟩
